import Mathlib

/-!
# Verification of the real-time chat delivery core

Shallow embedding of the server-side chat subsystem: the tagged-envelope
wire codec (`protocol.go`), the storage-row operations (`postgres.go`),
the per-frame domain handlers (`room.go`) and the Hub router (`hub.go`,
`Hub.Run` / `broadcastPresence` / `SendToUser`).

Machine-level details that the properties do not depend on are abstracted
as follows: Go byte-slice payloads are opaque `Nat` tokens, `time.Time`
values are `Int` instants, the external RFC 3339 parser is an explicit
`String → Option Int` argument, and a fallible storage call is an explicit
`Except String α` result argument mirroring the handler's `err != nil`
branch.  Go pointer identity on `*Client` is modelled by a numeric `cid`
field.
-/

namespace Chat

/-! ## JSON values

A JSON value, as produced by Go's `encoding/json` for the payload structs
of `protocol.go` (strings, booleans, integers and flat objects only). -/

inductive Json where
  | null
  | bool (b : Bool)
  | num (n : Int)
  | str (s : String)
  | obj (fields : List (String × Json))

/-- Go `json.Unmarshal` semantics for a `string` struct field: a missing
key yields the zero value `""`, a present key must be a JSON string. -/
def getStr (fields : List (String × Json)) (key : String) : Option String :=
  match fields.lookup key with
  | none => some ""
  | some (Json.str s) => some s
  | some _ => none

/-- Go `json.Unmarshal` semantics for a `bool` struct field. -/
def getBool (fields : List (String × Json)) (key : String) : Option Bool :=
  match fields.lookup key with
  | none => some false
  | some (Json.bool b) => some b
  | some _ => none

/-- Go `json.Unmarshal` semantics for an `int` struct field. -/
def getInt (fields : List (String × Json)) (key : String) : Option Int :=
  match fields.lookup key with
  | none => some 0
  | some (Json.num n) => some n
  | some _ => none

/-! ## Payload structs (`protocol.go`) -/

structure SendMessagePayload where
  room_id : String
  content : String
deriving DecidableEq

structure RoomPayload where
  room_id : String
deriving DecidableEq

structure ReadPayload where
  room_id : String
  timestamp : String
deriving DecidableEq

structure NewMessagePayload where
  id : String
  room_id : String
  sender_id : String
  sender_username : String
  content : String
  created_at : String
deriving DecidableEq

structure TypingUpdatePayload where
  room_id : String
  user_id : String
  username : String
  is_typing : Bool
deriving DecidableEq

structure PresenceUpdatePayload where
  user_id : String
  username : String
  status : String
deriving DecidableEq

structure ReadReceiptPayload where
  room_id : String
  user_id : String
  username : String
  last_read_at : String
deriving DecidableEq

structure UnreadUpdatePayload where
  room_id : String
  count : Int
deriving DecidableEq

structure MemberEventPayload where
  room_id : String
  user_id : String
  username : String
deriving DecidableEq

structure ErrorPayload where
  message : String
  code : String
deriving DecidableEq

/-- The closed set of wire frames: one constructor per `type` tag of
`protocol.go`, carrying that tag's payload schema (`ping` and `pong`
carry a null payload). -/
inductive Frame where
  | messageSend (p : SendMessagePayload)
  | roomJoin (p : RoomPayload)
  | roomLeave (p : RoomPayload)
  | typingStart (p : RoomPayload)
  | typingStop (p : RoomPayload)
  | messageRead (p : ReadPayload)
  | ping
  | messageNew (p : NewMessagePayload)
  | typingUpdate (p : TypingUpdatePayload)
  | presenceUpdate (p : PresenceUpdatePayload)
  | readReceipt (p : ReadReceiptPayload)
  | unreadUpdate (p : UnreadUpdatePayload)
  | roomMemberJoined (p : MemberEventPayload)
  | roomMemberLeft (p : MemberEventPayload)
  | errorFrame (p : ErrorPayload)
  | pong
deriving DecidableEq

/-- The wire tag of a frame (the `Type...` constants of `protocol.go`). -/
def frameTag : Frame → String
  | Frame.messageSend _ => "message.send"
  | Frame.roomJoin _ => "room.join"
  | Frame.roomLeave _ => "room.leave"
  | Frame.typingStart _ => "typing.start"
  | Frame.typingStop _ => "typing.stop"
  | Frame.messageRead _ => "message.read"
  | Frame.ping => "ping"
  | Frame.messageNew _ => "message.new"
  | Frame.typingUpdate _ => "typing.update"
  | Frame.presenceUpdate _ => "presence.update"
  | Frame.readReceipt _ => "read_receipt.update"
  | Frame.unreadUpdate _ => "unread.update"
  | Frame.roomMemberJoined _ => "room.member_joined"
  | Frame.roomMemberLeft _ => "room.member_left"
  | Frame.errorFrame _ => "error"
  | Frame.pong => "pong"

/-- `json.Marshal` of each payload struct: an object listing the struct's
fields in declaration order under their `json:"..."` keys. -/
def framePayloadJson : Frame → Option Json
  | Frame.messageSend p =>
      some (Json.obj [("room_id", Json.str p.room_id), ("content", Json.str p.content)])
  | Frame.roomJoin p => some (Json.obj [("room_id", Json.str p.room_id)])
  | Frame.roomLeave p => some (Json.obj [("room_id", Json.str p.room_id)])
  | Frame.typingStart p => some (Json.obj [("room_id", Json.str p.room_id)])
  | Frame.typingStop p => some (Json.obj [("room_id", Json.str p.room_id)])
  | Frame.messageRead p =>
      some (Json.obj [("room_id", Json.str p.room_id), ("timestamp", Json.str p.timestamp)])
  | Frame.ping => none
  | Frame.messageNew p =>
      some (Json.obj [("id", Json.str p.id), ("room_id", Json.str p.room_id),
        ("sender_id", Json.str p.sender_id), ("sender_username", Json.str p.sender_username),
        ("content", Json.str p.content), ("created_at", Json.str p.created_at)])
  | Frame.typingUpdate p =>
      some (Json.obj [("room_id", Json.str p.room_id), ("user_id", Json.str p.user_id),
        ("username", Json.str p.username), ("is_typing", Json.bool p.is_typing)])
  | Frame.presenceUpdate p =>
      some (Json.obj [("user_id", Json.str p.user_id), ("username", Json.str p.username),
        ("status", Json.str p.status)])
  | Frame.readReceipt p =>
      some (Json.obj [("room_id", Json.str p.room_id), ("user_id", Json.str p.user_id),
        ("username", Json.str p.username), ("last_read_at", Json.str p.last_read_at)])
  | Frame.unreadUpdate p =>
      some (Json.obj [("room_id", Json.str p.room_id), ("count", Json.num p.count)])
  | Frame.roomMemberJoined p =>
      some (Json.obj [("room_id", Json.str p.room_id), ("user_id", Json.str p.user_id),
        ("username", Json.str p.username)])
  | Frame.roomMemberLeft p =>
      some (Json.obj [("room_id", Json.str p.room_id), ("user_id", Json.str p.user_id),
        ("username", Json.str p.username)])
  | Frame.errorFrame p =>
      some (Json.obj [("message", Json.str p.message), ("code", Json.str p.code)])
  | Frame.pong => none

/-- `NewWSMessage` (`protocol.go`): marshal the payload, wrap it in the
envelope `{ "type": <tag>, "payload": <json> }`; a `nil` payload is
omitted (the struct tag says `payload,omitempty`). -/
def NewWSMessage (f : Frame) : Json :=
  match framePayloadJson f with
  | none => Json.obj [("type", Json.str (frameTag f))]
  | some pj => Json.obj [("type", Json.str (frameTag f)), ("payload", pj)]

/-! Per-tag payload decoders (`json.Unmarshal` into the payload struct of
`protocol.go`, as the dispatch in `client.go` performs for inbound tags and
the client performs for outbound tags): unknown keys are ignored, missing
keys yield zero values, a type mismatch is an error, `null` leaves the
struct at its zero value. -/

def decodeSendMessagePayload : Json → Option SendMessagePayload
  | Json.null => some ⟨"", ""⟩
  | Json.obj fs => do
      let room ← getStr fs "room_id"
      let content ← getStr fs "content"
      pure ⟨room, content⟩
  | _ => none

def decodeRoomPayload : Json → Option RoomPayload
  | Json.null => some ⟨""⟩
  | Json.obj fs => do
      let room ← getStr fs "room_id"
      pure ⟨room⟩
  | _ => none

def decodeReadPayload : Json → Option ReadPayload
  | Json.null => some ⟨"", ""⟩
  | Json.obj fs => do
      let room ← getStr fs "room_id"
      let ts ← getStr fs "timestamp"
      pure ⟨room, ts⟩
  | _ => none

def decodeNewMessagePayload : Json → Option NewMessagePayload
  | Json.null => some ⟨"", "", "", "", "", ""⟩
  | Json.obj fs => do
      let i ← getStr fs "id"
      let room ← getStr fs "room_id"
      let sid ← getStr fs "sender_id"
      let sname ← getStr fs "sender_username"
      let content ← getStr fs "content"
      let created ← getStr fs "created_at"
      pure ⟨i, room, sid, sname, content, created⟩
  | _ => none

def decodeTypingUpdatePayload : Json → Option TypingUpdatePayload
  | Json.null => some ⟨"", "", "", false⟩
  | Json.obj fs => do
      let room ← getStr fs "room_id"
      let uid ← getStr fs "user_id"
      let uname ← getStr fs "username"
      let typing ← getBool fs "is_typing"
      pure ⟨room, uid, uname, typing⟩
  | _ => none

def decodePresenceUpdatePayload : Json → Option PresenceUpdatePayload
  | Json.null => some ⟨"", "", ""⟩
  | Json.obj fs => do
      let uid ← getStr fs "user_id"
      let uname ← getStr fs "username"
      let status ← getStr fs "status"
      pure ⟨uid, uname, status⟩
  | _ => none

def decodeReadReceiptPayload : Json → Option ReadReceiptPayload
  | Json.null => some ⟨"", "", "", ""⟩
  | Json.obj fs => do
      let room ← getStr fs "room_id"
      let uid ← getStr fs "user_id"
      let uname ← getStr fs "username"
      let lra ← getStr fs "last_read_at"
      pure ⟨room, uid, uname, lra⟩
  | _ => none

def decodeUnreadUpdatePayload : Json → Option UnreadUpdatePayload
  | Json.null => some ⟨"", 0⟩
  | Json.obj fs => do
      let room ← getStr fs "room_id"
      let count ← getInt fs "count"
      pure ⟨room, count⟩
  | _ => none

def decodeMemberEventPayload : Json → Option MemberEventPayload
  | Json.null => some ⟨"", "", ""⟩
  | Json.obj fs => do
      let room ← getStr fs "room_id"
      let uid ← getStr fs "user_id"
      let uname ← getStr fs "username"
      pure ⟨room, uid, uname⟩
  | _ => none

def decodeErrorPayload : Json → Option ErrorPayload
  | Json.null => some ⟨"", ""⟩
  | Json.obj fs => do
      let message ← getStr fs "message"
      let code ← getStr fs "code"
      pure ⟨message, code⟩
  | _ => none

/-- Decode a whole frame: unmarshal the envelope (`WSMessage`), read the
`type` tag, then unmarshal the raw payload with that tag's schema.  A tag
that requires a payload fails when the `payload` key is absent (Go:
`json.Unmarshal` on a `nil` `RawMessage` errors); `ping`/`pong` ignore the
payload. -/
def decodeFrame (j : Json) : Option Frame :=
  match j with
  | Json.obj fs =>
    match fs.lookup "type" with
    | some (Json.str tag) =>
      match tag with
      | "message.send" => (fs.lookup "payload").bind decodeSendMessagePayload |>.map Frame.messageSend
      | "room.join" => (fs.lookup "payload").bind decodeRoomPayload |>.map Frame.roomJoin
      | "room.leave" => (fs.lookup "payload").bind decodeRoomPayload |>.map Frame.roomLeave
      | "typing.start" => (fs.lookup "payload").bind decodeRoomPayload |>.map Frame.typingStart
      | "typing.stop" => (fs.lookup "payload").bind decodeRoomPayload |>.map Frame.typingStop
      | "message.read" => (fs.lookup "payload").bind decodeReadPayload |>.map Frame.messageRead
      | "ping" => some Frame.ping
      | "message.new" => (fs.lookup "payload").bind decodeNewMessagePayload |>.map Frame.messageNew
      | "typing.update" => (fs.lookup "payload").bind decodeTypingUpdatePayload |>.map Frame.typingUpdate
      | "presence.update" => (fs.lookup "payload").bind decodePresenceUpdatePayload |>.map Frame.presenceUpdate
      | "read_receipt.update" => (fs.lookup "payload").bind decodeReadReceiptPayload |>.map Frame.readReceipt
      | "unread.update" => (fs.lookup "payload").bind decodeUnreadUpdatePayload |>.map Frame.unreadUpdate
      | "room.member_joined" => (fs.lookup "payload").bind decodeMemberEventPayload |>.map Frame.roomMemberJoined
      | "room.member_left" => (fs.lookup "payload").bind decodeMemberEventPayload |>.map Frame.roomMemberLeft
      | "error" => (fs.lookup "payload").bind decodeErrorPayload |>.map Frame.errorFrame
      | "pong" => some Frame.pong
      | _ => none
    | _ => none
  | _ => none

/-! ## Storage rows (`postgres.go`)

Rows of the `room_members` and `messages` tables; time instants are `Int`. -/

structure MembershipRow where
  room_id : String
  user_id : String
  last_read_at : Int
deriving DecidableEq

structure MessageRow where
  id : String
  room_id : String
  sender_id : String
  content : String
  created_at : Int
deriving DecidableEq

/-- `UpdateLastRead` (`postgres.go`):
`UPDATE room_members SET last_read_at = $1 WHERE room_id = $2 AND user_id = $3`.
Every row matching the key gets `last_read_at` replaced by `timestamp`;
non-matching rows are untouched; zero matching rows is not an error. -/
def UpdateLastRead (members : List MembershipRow) (roomID userID : String)
    (timestamp : Int) : List MembershipRow :=
  members.map (fun rm =>
    if rm.room_id == roomID && rm.user_id == userID then
      { rm with last_read_at := timestamp }
    else rm)

/-- `IsRoomMember` (`postgres.go`):
`SELECT EXISTS(SELECT 1 FROM room_members WHERE room_id = $1 AND user_id = $2)`. -/
def IsRoomMember (members : List MembershipRow) (roomID userID : String) : Bool :=
  members.any (fun rm => rm.room_id == roomID && rm.user_id == userID)

/-- `GetUnreadCount` (`postgres.go`):
`SELECT COUNT(*) FROM messages m JOIN room_members rm
   ON rm.room_id = m.room_id AND rm.user_id = $2
 WHERE m.room_id = $1 AND m.created_at > rm.last_read_at AND m.sender_id != $2`.
The inner filter is the JOIN condition, the outer one the WHERE clause;
the count of joined rows is summed per message. -/
def GetUnreadCount (messages : List MessageRow) (members : List MembershipRow)
    (roomID userID : String) : Int :=
  ((messages.map (fun m =>
    ((members.filter (fun rm => rm.room_id == m.room_id && rm.user_id == userID)).filter
      (fun rm => m.room_id == roomID && decide (rm.last_read_at < m.created_at)
        && !(m.sender_id == userID))).length)).sum : Nat)

/-- Spec-side unread count, for the refinement comparison of the storage
query.  Written from the spec's words:
`unread_count(room, user) = |{ m ∈ messages(room) :
  m.created_at > membership.last_read_at ∧ m.sender_id ≠ user }|`. -/
def unreadCountSpec (messages : List MessageRow) (lastReadAt : Int)
    (roomID userID : String) : Nat :=
  (messages.filter (fun m => m.room_id == roomID
    && decide (lastReadAt < m.created_at) && !(m.sender_id == userID))).length

/-! ## Domain operations (`room.go`)

Each handler is embedded as a pure function from its inputs to the list
of emitted effects.  A storage call's outcome is an explicit
`Except String _` argument (`Except.error` is Go's `err != nil` branch);
the external RFC 3339 parser is an explicit `String → Option Int`
argument.  `NewWSMessage` on these payload structs cannot fail, so its
`err != nil` branches are dead and the encoder is treated as total. -/

/-- The sender's identity as the handlers see it (`Client.UserID` /
`Client.Username`). -/
structure ClientCtx where
  UserID : String
  Username : String
deriving DecidableEq

/-- `models.MessageWithSender`: the row `CreateMessage` reads back
(`created_at` already RFC 3339-formatted, as the handler formats it). -/
structure MessageWithSender where
  ID : String
  RoomID : String
  SenderID : String
  SenderUsername : String
  Content : String
  CreatedAt : String
deriving DecidableEq

/-- An effect emitted by a domain handler: an error frame enqueued on the
sender's own queue (`sendError`), a Hub room broadcast
(`BroadcastToRoom`), a point-to-point send (`SendToUser`), or the spawned
unread-recount fan-out (`go sendUnreadUpdates`). -/
inductive ChatOut where
  | errorToSender (message code : String)
  | broadcast (roomID : String) (frame : Frame) (excludeUserID : String)
  | toUser (userID : String) (frame : Frame)
  | spawnUnread (roomID senderID : String)
deriving DecidableEq

/-- `sendError` (`room.go`): non-blocking enqueue of an `error` frame on
the sender's own queue. -/
def sendError (message code : String) : ChatOut :=
  ChatOut.errorToSender message code

/-- `HandleSendMessage` (`room.go`). -/
def HandleSendMessage (c : ClientCtx) (payload : SendMessagePayload)
    (isMemberRes : Except String Bool) (createRes : Except String MessageWithSender) :
    List ChatOut :=
  if payload.content == "" || payload.room_id == "" then
    [sendError "content and room_id are required" "INVALID_PAYLOAD"]
  else
    match isMemberRes with
    | Except.error _ => [sendError "not a member of this room" "NOT_MEMBER"]
    | Except.ok isMember =>
      if !isMember then [sendError "not a member of this room" "NOT_MEMBER"]
      else
        match createRes with
        | Except.error _ => [sendError "failed to send message" "INTERNAL_ERROR"]
        | Except.ok msg =>
          [ChatOut.broadcast payload.room_id
            (Frame.messageNew ⟨msg.ID, msg.RoomID, msg.SenderID, msg.SenderUsername,
              msg.Content, msg.CreatedAt⟩) "",
           ChatOut.spawnUnread payload.room_id c.UserID]

/-- `HandleRoomJoin` (`room.go`): on storage failure it only logs and
returns; on success it adds the room to the session's set and broadcasts
`room.member_joined` with no exclusion. -/
def HandleRoomJoin (c : ClientCtx) (rooms : List String) (payload : RoomPayload)
    (addRes : Except String Unit) : List String × List ChatOut :=
  match addRes with
  | Except.error _ => (rooms, [])
  | Except.ok _ =>
    (if rooms.contains payload.room_id then rooms else payload.room_id :: rooms,
     [ChatOut.broadcast payload.room_id
        (Frame.roomMemberJoined ⟨payload.room_id, c.UserID, c.Username⟩) ""])

/-- `HandleRoomLeave` (`room.go`). -/
def HandleRoomLeave (c : ClientCtx) (rooms : List String) (payload : RoomPayload)
    (removeRes : Except String Unit) : List String × List ChatOut :=
  match removeRes with
  | Except.error _ => (rooms, [])
  | Except.ok _ =>
    (rooms.filter (fun r => !(r == payload.room_id)),
     [ChatOut.broadcast payload.room_id
        (Frame.roomMemberLeft ⟨payload.room_id, c.UserID, c.Username⟩) ""])

/-- `HandleTyping` (`room.go`): broadcasts `typing.update` excluding the
sender; it performs no storage call at all. -/
def HandleTyping (c : ClientCtx) (payload : RoomPayload) (isTyping : Bool) : List ChatOut :=
  [ChatOut.broadcast payload.room_id
    (Frame.typingUpdate ⟨payload.room_id, c.UserID, c.Username, isTyping⟩) c.UserID]

/-- `HandleMessageRead` (`room.go`): parse the timestamp, update storage,
then broadcast the read receipt (excluding the sender) and send the
sender an `unread.update` with count 0. -/
def HandleMessageRead (c : ClientCtx) (payload : ReadPayload)
    (parse : String → Option Int) (updateRes : Except String Unit) : List ChatOut :=
  match parse payload.timestamp with
  | none => []
  | some _ =>
    match updateRes with
    | Except.error _ => []
    | Except.ok _ =>
      [ChatOut.broadcast payload.room_id
        (Frame.readReceipt ⟨payload.room_id, c.UserID, c.Username, payload.timestamp⟩)
        c.UserID,
       ChatOut.toUser c.UserID (Frame.unreadUpdate ⟨payload.room_id, 0⟩)]

/-! ## The Hub (`hub.go`)

The Hub's `clients` map is an association list `user_id → Client` with
no duplicate keys; Go pointer identity of `*Client` is the `cid` field;
a Session's bounded outbound channel is abstracted to its occupancy
`pending` against its capacity `cap` (256 in `ServeWS`), and broadcast
`[]byte` payloads are opaque `Nat` tokens. -/

/-- A registered Session as the Hub sees it (`Client` in `client.go`). -/
structure Client where
  cid : Nat
  UserID : String
  Username : String
  rooms : List String
  pending : Nat
  cap : Nat
deriving DecidableEq

/-- A frame travelling through a Session's outbound queue: a presence
update built by `broadcastPresence`, or an opaque broadcast payload. -/
inductive HubFrame where
  | presence (userID username status : String)
  | data (payload : Nat)
deriving DecidableEq

/-- An observable action of the Hub: a successful non-blocking enqueue
onto a user's queue (`client.send <- data`), or closing a Session's
outbound channel (`close(client.send)`). -/
inductive HubOut where
  | enqueue (userID : String) (frame : HubFrame)
  | closeSend (cid : Nat)
deriving DecidableEq

/-- The user ids present in the clients map. -/
def keysOf (clients : List (String × Client)) : List String :=
  clients.map Prod.fst

/-- Map lookup `h.clients[userID]`. -/
def lookupC : List (String × Client) → String → Option Client
  | [], _ => none
  | (k, c) :: rest, u => if k = u then some c else lookupC rest u

/-- Map assignment `h.clients[userID] = client`. -/
def setC : List (String × Client) → String → Client → List (String × Client)
  | [], u, c => [(u, c)]
  | (k, c0) :: rest, u, c =>
    if k = u then (u, c) :: rest else (k, c0) :: setC rest u c

/-- Map deletion `delete(h.clients, userID)`. -/
def removeC (clients : List (String × Client)) (u : String) : List (String × Client) :=
  clients.filter (fun p => !(p.1 == u))

/-- A non-blocking enqueue attempt that drops on a full queue
(`select { case c.send <- data: default: }`). -/
def tryEnqueue (c : Client) : Client :=
  if c.pending < c.cap then { c with pending := c.pending + 1 } else c

/-- `Hub.broadcastPresence` (`hub.go`): attempt a non-blocking enqueue of
the presence frame on every live Session; a full queue silently drops the
frame (the `default:` branch does nothing — no eviction). -/
def broadcastPresence (clients : List (String × Client)) (f : HubFrame) :
    List (String × Client) × List HubOut :=
  (clients.map (fun p => (p.1, tryEnqueue p.2)),
   clients.filterMap (fun p =>
     if p.2.pending < p.2.cap then some (HubOut.enqueue p.1 f) else none))

/-- The `broadcast` case of `Hub.Run`: for every Session not matching
`ExcludeUserID` whose subscribed set contains the room, try a
non-blocking enqueue; on a full queue close the Session's channel and
delete it from the map. -/
def broadcastDeliver : List (String × Client) → String → Nat → String →
    List (String × Client) × List HubOut
  | [], _, _, _ => ([], [])
  | (u, c) :: rest, roomID, payload, exclude =>
    let r := broadcastDeliver rest roomID payload exclude
    if u = exclude then ((u, c) :: r.1, r.2)
    else if c.rooms.contains roomID then
      (if c.pending < c.cap then
        ((u, { c with pending := c.pending + 1 }) :: r.1,
         HubOut.enqueue u (HubFrame.data payload) :: r.2)
      else (r.1, HubOut.closeSend c.cid :: r.2))
    else ((u, c) :: r.1, r.2)

/-- `Hub.SendToUser` (`hub.go`): point-to-point non-blocking enqueue;
dropped silently when the Session is absent or its queue is full. -/
def SendToUser (clients : List (String × Client)) (userID : String) (payload : Nat) :
    List (String × Client) × List HubOut :=
  match lookupC clients userID with
  | none => (clients, [])
  | some c =>
    if c.pending < c.cap then
      (setC clients userID { c with pending := c.pending + 1 },
       [HubOut.enqueue userID (HubFrame.data payload)])
    else (clients, [])

/-- The three event streams consumed by `Hub.Run`. -/
inductive HubEvent where
  | register (c : Client)
  | unregister (c : Client)
  | broadcastMsg (roomID : String) (payload : Nat) (excludeUserID : String)

/-- One iteration of `Hub.Run`'s select loop.

* `register`: close the displaced old Session's channel if one exists,
  install the new Session, then broadcast `presence.update online` to
  all live Sessions.
* `unregister`: remove and close only if the map still points at this
  very Session (the `existing == client` pointer identity check), then
  broadcast `presence.update offline` — note the broadcast sits outside
  the identity check and runs unconditionally, exactly as in the source.
* `broadcast`: room fan-out with slow-consumer eviction. -/
def hubStep (clients : List (String × Client)) :
    HubEvent → List (String × Client) × List HubOut
  | HubEvent.register c =>
    let closeOuts : List HubOut :=
      match lookupC clients c.UserID with
      | some old => [HubOut.closeSend old.cid]
      | none => []
    let r := broadcastPresence (setC clients c.UserID c)
      (HubFrame.presence c.UserID c.Username "online")
    (r.1, closeOuts ++ r.2)
  | HubEvent.unregister c =>
    let s1 : List (String × Client) × List HubOut :=
      match lookupC clients c.UserID with
      | some existing =>
        if existing.cid = c.cid then
          (removeC clients c.UserID, [HubOut.closeSend c.cid])
        else (clients, [])
      | none => (clients, [])
    let r := broadcastPresence s1.1 (HubFrame.presence c.UserID c.Username "offline")
    (r.1, s1.2 ++ r.2)
  | HubEvent.broadcastMsg roomID payload exclude =>
    broadcastDeliver clients roomID payload exclude

/-- Process a sequence of Hub events, accumulating the emitted actions. -/
def hubSteps (clients : List (String × Client)) :
    List HubEvent → List (String × Client) × List HubOut
  | [] => (clients, [])
  | e :: evs =>
    let r := hubStep clients e
    let r2 := hubSteps r.1 evs
    (r2.1, r.2 ++ r2.2)

/-- The presence statuses enqueued to `recipient` about `subject`, in
order, among a list of Hub actions. -/
def presenceStatusesFor (outs : List HubOut) (recipient subject : String) : List String :=
  outs.filterMap (fun o =>
    match o with
    | HubOut.enqueue r (HubFrame.presence uid _ st) =>
        if r == recipient && uid == subject then some st else none
    | _ => none)

/-! ## Theorems -/

/-- **C9.** For every frame tag of the wire protocol and every payload value
of that tag's schema, encoding the frame with the envelope codec
(`NewWSMessage`) and then decoding the resulting JSON yields the original
type tag and an equal payload. -/
theorem frame_roundtrip (f : Frame) : decodeFrame (NewWSMessage f) = some f := by
  cases f <;> rfl

/-- **C2 counterexample.** With a stored `last_read_at` of 2, a mark-read
carrying timestamp 1 leaves `last_read_at = 1`, not `max 2 1 = 2`: the
`UPDATE` overwrites unconditionally, so the claimed max/monotonicity fails. -/
theorem updateLastRead_overwrites_not_max :
    UpdateLastRead [⟨"r1", "u2", 2⟩] "r1" "u2" 1 = [⟨"r1", "u2", 1⟩]
  ∧ max (2 : Int) 1 = 2 ∧ ¬ ((1 : Int) = 2) := by
  decide

/-- **C2 amended.** `UpdateLastRead` stores exactly the submitted timestamp
on every row matching `(room, user)` (no max is taken), so a second
mark-read simply overwrites the first: the final `last_read_at` is the
timestamp of the last-processed submission, not the maximum. -/
theorem updateLastRead_stores_submitted (members : List MembershipRow)
    (roomID userID : String) (t1 t2 : Int) :
    ((UpdateLastRead members roomID userID t1).all fun rm =>
        !(rm.room_id == roomID && rm.user_id == userID) || (rm.last_read_at == t1)) = true
  ∧ UpdateLastRead (UpdateLastRead members roomID userID t1) roomID userID t2
      = UpdateLastRead members roomID userID t2 := by
  constructor
  · induction members with
    | nil => rfl
    | cons rm rest ih =>
      simp only [UpdateLastRead, List.map_cons, List.all_cons] at *
      cases h : (rm.room_id == roomID && rm.user_id == userID) with
      | true => simpa [h] using ih
      | false => simpa [h] using ih
  · simp only [UpdateLastRead, List.map_map]
    apply List.map_congr_left
    intro a _
    simp only [Function.comp_apply]
    cases h : (a.room_id == roomID && a.user_id == userID) with
    | true => simp [h]
    | false => simp [h]

/-- Helper for C7: the summed join count of `GetUnreadCount` equals the
spec-side filter count once the user's membership row in the room is
unique. -/
theorem unread_join_sum_eq (messages : List MessageRow) (members : List MembershipRow)
    (roomID userID : String) (rm0 : MembershipRow)
    (hm : members.filter (fun rm => rm.room_id == roomID && rm.user_id == userID) = [rm0]) :
    (messages.map (fun m =>
      ((members.filter (fun rm => rm.room_id == m.room_id && rm.user_id == userID)).filter
        (fun rm => m.room_id == roomID && decide (rm.last_read_at < m.created_at)
          && !(m.sender_id == userID))).length)).sum
      = unreadCountSpec messages rm0.last_read_at roomID userID := by
  induction messages with
  | nil => rfl
  | cons m rest ih =>
    simp only [List.map_cons, List.sum_cons, unreadCountSpec, List.filter_cons] at ih ⊢
    cases hroom : (m.room_id == roomID) with
    | false =>
      simp only [hroom, Bool.false_and, Bool.false_eq_true, if_false, List.filter_false,
        List.length_nil, Nat.zero_add]
      exact ih
    | true =>
      have heq : m.room_id = roomID := eq_of_beq hroom
      rw [heq, hm]
      simp only [List.filter_cons, List.filter_nil, beq_self_eq_true, Bool.true_and]
      cases hc : (decide (rm0.last_read_at < m.created_at) && !(m.sender_id == userID)) with
      | false =>
        simp only [hc, Bool.false_eq_true, if_false, List.length_nil, Nat.zero_add]
        exact ih
      | true =>
        simp only [hc, List.length_cons, List.length_nil, if_true]
        rw [ih]
        omega

/-- **C7.** For a user holding the (unique) membership row `rm0` in a room,
the storage unread-count query returns exactly the number of messages of
the room created strictly after `rm0.last_read_at` and not sent by the
user; the count is non-negative. -/
theorem getUnreadCount_eq_spec (messages : List MessageRow) (members : List MembershipRow)
    (roomID userID : String) (rm0 : MembershipRow)
    (hm : members.filter (fun rm => rm.room_id == roomID && rm.user_id == userID) = [rm0]) :
    GetUnreadCount messages members roomID userID
      = (unreadCountSpec messages rm0.last_read_at roomID userID : Int)
  ∧ 0 ≤ GetUnreadCount messages members roomID userID := by
  constructor
  · show ((_ : Nat) : Int) = _
    exact_mod_cast unread_join_sum_eq messages members roomID userID rm0 hm
  · exact Int.natCast_nonneg _

/-- Witness for C7 at a concrete store: three messages in `r1`, one of
them unread for `u2` (created after `last_read_at = 5`, different sender). -/
theorem getUnreadCount_eq_spec_witness :
    GetUnreadCount [⟨"m1", "r1", "u1", "hi", 6⟩, ⟨"m2", "r1", "u2", "yo", 7⟩,
        ⟨"m3", "r1", "u1", "old", 4⟩] [⟨"r1", "u2", 5⟩, ⟨"r2", "u2", 0⟩] "r1" "u2"
      = (unreadCountSpec [⟨"m1", "r1", "u1", "hi", 6⟩, ⟨"m2", "r1", "u2", "yo", 7⟩,
        ⟨"m3", "r1", "u1", "old", 4⟩] 5 "r1" "u2" : Int)
  ∧ 0 ≤ GetUnreadCount [⟨"m1", "r1", "u1", "hi", 6⟩, ⟨"m2", "r1", "u2", "yo", 7⟩,
        ⟨"m3", "r1", "u1", "old", 4⟩] [⟨"r1", "u2", 5⟩, ⟨"r2", "u2", 0⟩] "r1" "u2" :=
  getUnreadCount_eq_spec _ _ "r1" "u2" ⟨"r1", "u2", 5⟩ (by decide)

/-- **C4 counterexample.** A failing `AddRoomMember` inside the join-room
operation produces no frame at all — in particular the sender does NOT
receive an `INTERNAL_ERROR` frame. -/
theorem roomJoin_storage_error_silent :
    (HandleRoomJoin ⟨"u1", "A"⟩ [] ⟨"r1"⟩ (Except.error "insert failed")).2 = []
  ∧ ChatOut.errorToSender "failed to join room" "INTERNAL_ERROR"
      ∉ (HandleRoomJoin ⟨"u1", "A"⟩ [] ⟨"r1"⟩ (Except.error "insert failed")).2 := by
  decide

/-- **C4 amended.** When a storage call inside a Domain Operation fails, no
frame from that operation reaches any session: join-room, leave-room and
mark-read abort silently (no frame even to the sender), and only
send-message's failing `CreateMessage` yields an `INTERNAL_ERROR` frame to
the sender (and nothing else). -/
theorem storage_error_frames (c : ClientCtx) (rooms : List String) (rp : RoomPayload)
    (readp : ReadPayload) (sp : SendMessagePayload) (e : String)
    (parse : String → Option Int)
    (hcnt : sp.content ≠ "") (hrm : sp.room_id ≠ "") :
    (HandleRoomJoin c rooms rp (Except.error e)).2 = []
  ∧ (HandleRoomLeave c rooms rp (Except.error e)).2 = []
  ∧ HandleMessageRead c readp parse (Except.error e) = []
  ∧ HandleSendMessage c sp (Except.ok true) (Except.error e)
      = [ChatOut.errorToSender "failed to send message" "INTERNAL_ERROR"] := by
  refine ⟨rfl, rfl, ?_, ?_⟩
  · cases hp : parse readp.timestamp <;> simp [HandleMessageRead, hp]
  · simp [HandleSendMessage, hcnt, hrm, sendError]

/-- Witness for C4 amended, at concrete arguments. -/
theorem storage_error_frames_witness :
    (HandleRoomJoin ⟨"u2", "B"⟩ ["r0"] ⟨"r1"⟩ (Except.error "x")).2 = []
  ∧ (HandleRoomLeave ⟨"u2", "B"⟩ ["r0"] ⟨"r1"⟩ (Except.error "x")).2 = []
  ∧ HandleMessageRead ⟨"u2", "B"⟩ ⟨"r1", "2026-01-01T00:00:00Z"⟩ (fun _ => some 3)
      (Except.error "x") = []
  ∧ HandleSendMessage ⟨"u2", "B"⟩ ⟨"r1", "hello"⟩ (Except.ok true) (Except.error "x")
      = [ChatOut.errorToSender "failed to send message" "INTERNAL_ERROR"] :=
  storage_error_frames ⟨"u2", "B"⟩ ["r0"] ⟨"r1"⟩ ⟨"r1", "2026-01-01T00:00:00Z"⟩
    ⟨"r1", "hello"⟩ "x" (fun _ => some 3) (by decide) (by decide)

/-- **C5 counterexample.** In a store with no membership rows at all,
`typing.start` from `u1` still publishes the `typing.update` broadcast:
the typing handler consults no membership state. -/
theorem typing_broadcast_without_membership :
    IsRoomMember [] "r1" "u1" = false
  ∧ ChatOut.broadcast "r1" (Frame.typingUpdate ⟨"r1", "u1", "A", true⟩) "u1"
      ∈ HandleTyping ⟨"u1", "A"⟩ ⟨"r1"⟩ true := by
  decide

/-- **C5 amended.** Only send-message gates its broadcast on persisted
membership, re-checked in storage at send time: a non-member receives
`NOT_MEMBER` and no broadcast, a member's message is broadcast (with the
unread fan-out), and any broadcast emitted by send-message implies the
membership check returned true and the insert succeeded.  Typing and
mark-read broadcasts are published without any membership check. -/
theorem sendMessage_membership_gate (c : ClientCtx) (sp : SendMessagePayload)
    (m : MessageWithSender) (isMemberRes : Except String Bool)
    (createRes : Except String MessageWithSender)
    (hcnt : sp.content ≠ "") (hrm : sp.room_id ≠ "") :
    HandleSendMessage c sp (Except.ok false) createRes
      = [ChatOut.errorToSender "not a member of this room" "NOT_MEMBER"]
  ∧ HandleSendMessage c sp (Except.ok true) (Except.ok m)
      = [ChatOut.broadcast sp.room_id (Frame.messageNew ⟨m.ID, m.RoomID, m.SenderID,
          m.SenderUsername, m.Content, m.CreatedAt⟩) "",
         ChatOut.spawnUnread sp.room_id c.UserID]
  ∧ (∀ r f ex, ChatOut.broadcast r f ex ∈ HandleSendMessage c sp isMemberRes createRes →
      isMemberRes = Except.ok true ∧ ∃ mm, createRes = Except.ok mm) := by
  have hguard : (sp.content == "" || sp.room_id == "") = false := by simp [hcnt, hrm]
  refine ⟨by simp [HandleSendMessage, hguard, sendError],
    by simp [HandleSendMessage, hguard], ?_⟩
  intro r f ex hmem
  cases isMemberRes with
  | error e => simp [HandleSendMessage, hguard, sendError] at hmem
  | ok b =>
    cases b with
    | false => simp [HandleSendMessage, hguard, sendError] at hmem
    | true =>
      cases createRes with
      | error e => simp [HandleSendMessage, hguard, sendError] at hmem
      | ok mm => exact ⟨rfl, mm, rfl⟩

/-- Witness for C5 amended, at concrete arguments. -/
theorem sendMessage_membership_gate_witness :
    HandleSendMessage ⟨"u1", "A"⟩ ⟨"r1", "hi"⟩ (Except.ok false)
        (Except.ok ⟨"m1", "r1", "u1", "A", "hi", "t"⟩)
      = [ChatOut.errorToSender "not a member of this room" "NOT_MEMBER"]
  ∧ HandleSendMessage ⟨"u1", "A"⟩ ⟨"r1", "hi"⟩ (Except.ok true)
        (Except.ok ⟨"m1", "r1", "u1", "A", "hi", "t"⟩)
      = [ChatOut.broadcast "r1" (Frame.messageNew ⟨"m1", "r1", "u1", "A", "hi", "t"⟩) "",
         ChatOut.spawnUnread "r1" "u1"]
  ∧ (∀ r f ex, ChatOut.broadcast r f ex ∈ HandleSendMessage ⟨"u1", "A"⟩ ⟨"r1", "hi"⟩
        (Except.ok false) (Except.ok ⟨"m1", "r1", "u1", "A", "hi", "t"⟩) →
      (Except.ok false : Except String Bool) = Except.ok true
        ∧ ∃ mm, (Except.ok ⟨"m1", "r1", "u1", "A", "hi", "t"⟩
            : Except String MessageWithSender) = Except.ok mm) :=
  sendMessage_membership_gate ⟨"u1", "A"⟩ ⟨"r1", "hi"⟩ ⟨"m1", "r1", "u1", "A", "hi", "t"⟩
    (Except.ok false) (Except.ok ⟨"m1", "r1", "u1", "A", "hi", "t"⟩) (by decide) (by decide)

/-- **C10.** The mark-read operation emits nothing at all exactly when the
timestamp fails to parse or the storage update fails; otherwise it emits
its read-receipt broadcast and unread reset. -/
theorem messageRead_silent_iff_failure (c : ClientCtx) (payload : ReadPayload)
    (parse : String → Option Int) (updateRes : Except String Unit) :
    HandleMessageRead c payload parse updateRes = [] ↔
      (parse payload.timestamp = none ∨ ∃ e, updateRes = Except.error e) := by
  cases hp : parse payload.timestamp <;> cases updateRes <;>
    simp [HandleMessageRead, hp]

/-! ### Hub map helper lemmas -/

theorem tryEnqueue_cid (c : Client) : (tryEnqueue c).cid = c.cid := by
  unfold tryEnqueue
  split <;> rfl

theorem lookupC_cons_pos (k : String) (c0 : Client) (rest : List (String × Client))
    (u : String) (hk : k = u) : lookupC ((k, c0) :: rest) u = some c0 := by
  simp [lookupC, hk]

theorem lookupC_cons_neg (k : String) (c0 : Client) (rest : List (String × Client))
    (u : String) (hk : k ≠ u) : lookupC ((k, c0) :: rest) u = lookupC rest u := by
  simp [lookupC, hk]

theorem setC_cons_pos (k : String) (c0 : Client) (rest : List (String × Client))
    (u : String) (c : Client) (hk : k = u) :
    setC ((k, c0) :: rest) u c = (u, c) :: rest := by
  simp [setC, hk]

theorem setC_cons_neg (k : String) (c0 : Client) (rest : List (String × Client))
    (u : String) (c : Client) (hk : k ≠ u) :
    setC ((k, c0) :: rest) u c = (k, c0) :: setC rest u c := by
  simp [setC, hk]

theorem keysOf_broadcastPresence (cl : List (String × Client)) (f : HubFrame) :
    keysOf (broadcastPresence cl f).1 = keysOf cl := by
  induction cl with
  | nil => rfl
  | cons p rest ih =>
    simp only [broadcastPresence, List.map_cons, keysOf] at ih ⊢
    rw [ih]

theorem lookupC_mapVal (g : Client → Client) (cl : List (String × Client)) (u : String) :
    lookupC (cl.map (fun p => (p.1, g p.2))) u = (lookupC cl u).map g := by
  induction cl with
  | nil => rfl
  | cons p rest ih =>
    by_cases hk : p.1 = u
    · simp [lookupC, hk]
    · simp [lookupC, hk, ih]

theorem lookupC_setC_self (cl : List (String × Client)) (u : String) (c : Client) :
    lookupC (setC cl u c) u = some c := by
  induction cl with
  | nil => simp [setC, lookupC]
  | cons p rest ih =>
    obtain ⟨k, c0⟩ := p
    by_cases hk : k = u
    · rw [setC_cons_pos k c0 rest u c hk, lookupC_cons_pos u c rest u rfl]
    · rw [setC_cons_neg k c0 rest u c hk, lookupC_cons_neg k c0 (setC rest u c) u hk, ih]

theorem mem_keysOf_setC (cl : List (String × Client)) (u x : String) (c : Client)
    (h : x ∈ keysOf (setC cl u c)) : x = u ∨ x ∈ keysOf cl := by
  induction cl with
  | nil =>
    simp only [setC, keysOf, List.map_cons, List.map_nil, List.mem_singleton] at h
    exact Or.inl h
  | cons p rest ih =>
    obtain ⟨k, c0⟩ := p
    by_cases hk : k = u
    · rw [setC_cons_pos k c0 rest u c hk] at h
      simp only [keysOf, List.map_cons, List.mem_cons] at h ⊢
      rcases h with h | h
      · exact Or.inl h
      · exact Or.inr (Or.inr h)
    · rw [setC_cons_neg k c0 rest u c hk] at h
      simp only [keysOf, List.map_cons, List.mem_cons] at h ⊢
      rcases h with h | h
      · exact Or.inr (Or.inl h)
      · rcases ih h with h1 | h2
        · exact Or.inl h1
        · exact Or.inr (Or.inr h2)

theorem nodup_keysOf_setC (cl : List (String × Client)) (u : String) (c : Client)
    (h : (keysOf cl).Nodup) : (keysOf (setC cl u c)).Nodup := by
  induction cl with
  | nil => simp [setC, keysOf]
  | cons p rest ih =>
    obtain ⟨k, c0⟩ := p
    simp only [keysOf, List.map_cons, List.nodup_cons] at h
    obtain ⟨hk0, hrest⟩ := h
    by_cases hk : k = u
    · rw [setC_cons_pos k c0 rest u c hk]
      simp only [keysOf, List.map_cons, List.nodup_cons]
      exact ⟨hk ▸ hk0, hrest⟩
    · rw [setC_cons_neg k c0 rest u c hk]
      simp only [keysOf, List.map_cons, List.nodup_cons]
      refine ⟨?_, ih hrest⟩
      intro hmem
      rcases mem_keysOf_setC rest u k c hmem with h1 | h2
      · exact hk h1
      · exact hk0 h2

theorem lookupC_eq_none_of_not_mem (cl : List (String × Client)) (u : String)
    (h : u ∉ keysOf cl) : lookupC cl u = none := by
  induction cl with
  | nil => rfl
  | cons p rest ih =>
    simp only [keysOf, List.map_cons, List.mem_cons, not_or] at h
    obtain ⟨h1, h2⟩ := h
    obtain ⟨k, c0⟩ := p
    rw [lookupC_cons_neg k c0 rest u (fun he => h1 he.symm)]
    exact ih h2

theorem lookupC_mem_keys (cl : List (String × Client)) (u : String) (c : Client)
    (h : lookupC cl u = some c) : u ∈ keysOf cl := by
  induction cl with
  | nil => cases h
  | cons p rest ih =>
    obtain ⟨k, c0⟩ := p
    by_cases hk : k = u
    · simp only [keysOf, List.map_cons, List.mem_cons]
      exact Or.inl hk.symm
    · rw [lookupC_cons_neg k c0 rest u hk] at h
      simp only [keysOf, List.map_cons, List.mem_cons]
      exact Or.inr (ih h)

theorem keysOf_setC_of_mem (cl : List (String × Client)) (u : String) (c c0 : Client)
    (h : lookupC cl u = some c0) : keysOf (setC cl u c) = keysOf cl := by
  induction cl with
  | nil => cases h
  | cons p rest ih =>
    obtain ⟨k, c1⟩ := p
    by_cases hk : k = u
    · rw [setC_cons_pos k c1 rest u c hk]
      subst hk
      simp [keysOf]
    · rw [lookupC_cons_neg k c1 rest u hk] at h
      rw [setC_cons_neg k c1 rest u c hk]
      simp only [keysOf, List.map_cons]
      exact congrArg (fun l => k :: l) (ih h)

theorem keysOf_broadcastDeliver_sublist (cl : List (String × Client)) (roomID : String)
    (payload : Nat) (exclude : String) :
    List.Sublist (keysOf (broadcastDeliver cl roomID payload exclude).1) (keysOf cl) := by
  induction cl with
  | nil => simp [broadcastDeliver]
  | cons p rest ih =>
    obtain ⟨k, c⟩ := p
    simp only [broadcastDeliver, keysOf, List.map_cons]
    split_ifs with h1 h2 h3
    · exact List.Sublist.cons₂ _ ih
    · exact List.Sublist.cons₂ _ ih
    · exact List.Sublist.cons _ ih
    · exact List.Sublist.cons₂ _ ih

theorem keysOf_removeC_sublist (cl : List (String × Client)) (u : String) :
    List.Sublist (keysOf (removeC cl u)) (keysOf cl) :=
  List.Sublist.map Prod.fst (List.filter_sublist cl)

theorem broadcastPresence_no_closeSend (cl : List (String × Client)) (f : HubFrame)
    (i : Nat) : HubOut.closeSend i ∉ (broadcastPresence cl f).2 := by
  intro hmem
  simp only [broadcastPresence, List.mem_filterMap] at hmem
  obtain ⟨p, hp, hif⟩ := hmem
  by_cases hq : p.2.pending < p.2.cap
  · rw [if_pos hq] at hif
    exact HubOut.noConfusion (Option.some.inj hif)
  · rw [if_neg hq] at hif
    exact Option.noConfusion hif

theorem sendToUser_preserves (cl : List (String × Client)) (u : String) (payload : Nat) :
    keysOf (SendToUser cl u payload).1 = keysOf cl
  ∧ ∀ i, HubOut.closeSend i ∉ (SendToUser cl u payload).2 := by
  cases hlk : lookupC cl u with
  | none =>
    have heq : SendToUser cl u payload = (cl, []) := by
      unfold SendToUser
      rw [hlk]
    rw [heq]
    exact ⟨rfl, fun i hm => by simp at hm⟩
  | some c =>
    by_cases hq : c.pending < c.cap
    · have heq : SendToUser cl u payload
          = (setC cl u { c with pending := c.pending + 1 },
             [HubOut.enqueue u (HubFrame.data payload)]) := by
        unfold SendToUser
        rw [hlk]
        exact if_pos hq
      rw [heq]
      refine ⟨keysOf_setC_of_mem cl u _ c hlk, ?_⟩
      intro i hm
      simp only [List.mem_singleton] at hm
      exact HubOut.noConfusion hm
    · have heq : SendToUser cl u payload = (cl, []) := by
        unfold SendToUser
        rw [hlk]
        exact if_neg hq
      rw [heq]
      exact ⟨rfl, fun i hm => by simp at hm⟩

theorem broadcastDeliver_evicts (cl : List (String × Client)) (roomID : String)
    (payload : Nat) (exclude u : String) (c : Client)
    (hnd : (keysOf cl).Nodup) (hlk : lookupC cl u = some c) (hex : u ≠ exclude)
    (hroom : c.rooms.contains roomID = true) (hfull : c.cap ≤ c.pending) :
    lookupC (broadcastDeliver cl roomID payload exclude).1 u = none
  ∧ HubOut.closeSend c.cid ∈ (broadcastDeliver cl roomID payload exclude).2 := by
  induction cl with
  | nil => cases hlk
  | cons p rest ih =>
    obtain ⟨k, c0⟩ := p
    simp only [keysOf, List.map_cons, List.nodup_cons] at hnd
    obtain ⟨hk0, hrest⟩ := hnd
    by_cases hk : k = u
    · subst hk
      rw [lookupC_cons_pos k c0 rest k rfl] at hlk
      have hc0 : c0 = c := Option.some.inj hlk
      subst hc0
      simp only [broadcastDeliver]
      rw [if_neg hex, if_pos hroom, if_neg (Nat.not_lt.mpr hfull)]
      constructor
      · exact lookupC_eq_none_of_not_mem _ _ (fun hm =>
          hk0 ((keysOf_broadcastDeliver_sublist rest roomID payload exclude).subset hm))
      · exact List.mem_cons_self _ _
    · rw [lookupC_cons_neg k c0 rest u hk] at hlk
      have ihr := ih hrest hlk
      simp only [broadcastDeliver]
      split_ifs with h1 h2 h3
      · exact ⟨by rw [lookupC_cons_neg k c0 _ u hk]; exact ihr.1, ihr.2⟩
      · exact ⟨by rw [lookupC_cons_neg k _ _ u hk]; exact ihr.1, List.mem_cons_of_mem _ ihr.2⟩
      · exact ⟨ihr.1, List.mem_cons_of_mem _ ihr.2⟩
      · exact ⟨by rw [lookupC_cons_neg k c0 _ u hk]; exact ihr.1, ihr.2⟩

theorem enqueue_mem_keys_broadcastDeliver (cl : List (String × Client)) (roomID : String)
    (payload : Nat) (exclude u : String) (f : HubFrame)
    (h : HubOut.enqueue u f ∈ (broadcastDeliver cl roomID payload exclude).2) :
    u ∈ keysOf cl := by
  induction cl with
  | nil => cases h
  | cons p rest ih =>
    obtain ⟨k, c⟩ := p
    simp only [broadcastDeliver] at h
    simp only [keysOf, List.map_cons, List.mem_cons]
    split_ifs at h with h1 h2 h3
    · exact Or.inr (ih h)
    · rcases List.mem_cons.mp h with h0 | h0
      · exact Or.inl (HubOut.enqueue.inj h0).1
      · exact Or.inr (ih h0)
    · rcases List.mem_cons.mp h with h0 | h0
      · exact HubOut.noConfusion h0
      · exact Or.inr (ih h0)
    · exact Or.inr (ih h)

theorem broadcastDeliver_enqueue_iff (cl : List (String × Client)) (roomID : String)
    (payload : Nat) (exclude : String)
    (hnf : ∀ p ∈ cl, p.2.pending < p.2.cap) (hnd : (keysOf cl).Nodup)
    (u : String) (c : Client) (hlk : lookupC cl u = some c) :
    (HubOut.enqueue u (HubFrame.data payload) ∈ (broadcastDeliver cl roomID payload exclude).2)
      ↔ (c.rooms.contains roomID = true ∧ u ≠ exclude) := by
  induction cl with
  | nil => cases hlk
  | cons p rest ih =>
    obtain ⟨k, c0⟩ := p
    have hnf0 : c0.pending < c0.cap := hnf (k, c0) (List.mem_cons_self _ _)
    have hnfr : ∀ p ∈ rest, p.2.pending < p.2.cap :=
      fun p hp => hnf p (List.mem_cons_of_mem _ hp)
    simp only [keysOf, List.map_cons, List.nodup_cons] at hnd
    obtain ⟨hk0, hrest⟩ := hnd
    by_cases hk : k = u
    · subst hk
      rw [lookupC_cons_pos k c0 rest k rfl] at hlk
      have hc0 : c0 = c := Option.some.inj hlk
      subst hc0
      simp only [broadcastDeliver]
      by_cases h1 : k = exclude
      · rw [if_pos h1]
        constructor
        · intro hmem
          exact absurd (enqueue_mem_keys_broadcastDeliver rest roomID payload exclude k _ hmem) hk0
        · rintro ⟨_, hne⟩
          exact absurd h1 hne
      · rw [if_neg h1]
        by_cases h2 : c0.rooms.contains roomID = true
        · rw [if_pos h2, if_pos hnf0]
          constructor
          · intro _
            exact ⟨h2, h1⟩
          · intro _
            exact List.mem_cons_self _ _
        · rw [if_neg h2]
          constructor
          · intro hmem
            exact absurd (enqueue_mem_keys_broadcastDeliver rest roomID payload exclude k _ hmem) hk0
          · rintro ⟨hr, _⟩
            exact absurd hr h2
    · rw [lookupC_cons_neg k c0 rest u hk] at hlk
      have ihr := ih hnfr hrest hlk
      simp only [broadcastDeliver]
      by_cases h1 : k = exclude
      · rw [if_pos h1]
        exact ihr
      · rw [if_neg h1]
        by_cases h2 : c0.rooms.contains roomID = true
        · rw [if_pos h2, if_pos hnf0]
          constructor
          · intro hm
            rcases List.mem_cons.mp hm with h0 | h0
            · exact absurd (HubOut.enqueue.inj h0).1.symm hk
            · exact ihr.mp h0
          · intro hrhs
            exact List.mem_cons_of_mem _ (ihr.mpr hrhs)
        · rw [if_neg h2]
          exact ihr

/-- **C6.** The Hub's clients map never holds two Sessions for one
user_id (no-duplicate-keys is preserved by every Hub event), and
registering a second session for a user_id that already has one closes
the old session's outbound queue and replaces the map entry with the new
session. -/
theorem hub_single_session (clients : List (String × Client)) (e : HubEvent)
    (hnd : (keysOf clients).Nodup) :
    (keysOf (hubStep clients e).1).Nodup
  ∧ (∀ c old, e = HubEvent.register c → lookupC clients c.UserID = some old →
      HubOut.closeSend old.cid ∈ (hubStep clients e).2
      ∧ (lookupC (hubStep clients e).1 c.UserID).map Client.cid = some c.cid) := by
  cases e with
  | register c =>
    simp only [hubStep]
    constructor
    · rw [keysOf_broadcastPresence]
      exact nodup_keysOf_setC clients c.UserID c hnd
    · intro c' old heq hlk
      cases heq
      constructor
      · rw [hlk]
        exact List.mem_append_left _ (List.mem_cons_self _ _)
      · have hbp : (broadcastPresence (setC clients c.UserID c)
            (HubFrame.presence c.UserID c.Username "online")).1
            = (setC clients c.UserID c).map (fun p => (p.1, tryEnqueue p.2)) := rfl
        rw [hbp, lookupC_mapVal, lookupC_setC_self]
        simp [tryEnqueue_cid]
  | unregister c =>
    refine ⟨?_, fun c' old heq => by cases heq⟩
    simp only [hubStep]
    rw [keysOf_broadcastPresence]
    cases hlk : lookupC clients c.UserID with
    | none => exact hnd
    | some existing =>
      show (keysOf (if existing.cid = c.cid then
          (removeC clients c.UserID, [HubOut.closeSend c.cid])
        else (clients, ([] : List HubOut))).1).Nodup
      by_cases hcid : existing.cid = c.cid
      · rw [if_pos hcid]
        exact hnd.sublist (keysOf_removeC_sublist clients c.UserID)
      · rw [if_neg hcid]
        exact hnd
  | broadcastMsg roomID payload exclude =>
    refine ⟨?_, fun c' old heq => by cases heq⟩
    exact hnd.sublist (keysOf_broadcastDeliver_sublist clients roomID payload exclude)

/-- Witness for C6: registering a second session (cid 2) for `u1`
displaces the first (cid 1): its queue-close is emitted and the map entry
now holds cid 2. -/
theorem hub_single_session_witness :
    (keysOf (hubStep [("u1", ⟨1, "u1", "A", [], 0, 256⟩)]
        (HubEvent.register ⟨2, "u1", "A", [], 0, 256⟩)).1).Nodup
  ∧ HubOut.closeSend 1 ∈ (hubStep [("u1", ⟨1, "u1", "A", [], 0, 256⟩)]
        (HubEvent.register ⟨2, "u1", "A", [], 0, 256⟩)).2
  ∧ (lookupC (hubStep [("u1", ⟨1, "u1", "A", [], 0, 256⟩)]
        (HubEvent.register ⟨2, "u1", "A", [], 0, 256⟩)).1 "u1").map Client.cid = some 2 := by
  have h := hub_single_session [("u1", ⟨1, "u1", "A", [], 0, 256⟩)]
    (HubEvent.register ⟨2, "u1", "A", [], 0, 256⟩) (by decide)
  have h2 := h.2 ⟨2, "u1", "A", [], 0, 256⟩ ⟨1, "u1", "A", [], 0, 256⟩ rfl (by decide)
  exact ⟨h.1, h2.1, h2.2⟩

/-- **C3 counterexample.** A session whose outbound queue is full
(`pending = cap = 256`) is NOT evicted by a presence enqueue nor by
`SendToUser`: the clients map is unchanged and no queue-close is emitted
(the frame is silently dropped). -/
theorem full_queue_presence_and_p2p_no_evict :
    (broadcastPresence [("u1", ⟨1, "u1", "A", ["r1"], 256, 256⟩)]
        (HubFrame.presence "u2" "B" "online")).1
      = [("u1", ⟨1, "u1", "A", ["r1"], 256, 256⟩)]
  ∧ (broadcastPresence [("u1", ⟨1, "u1", "A", ["r1"], 256, 256⟩)]
        (HubFrame.presence "u2" "B" "online")).2 = []
  ∧ SendToUser [("u1", ⟨1, "u1", "A", ["r1"], 256, 256⟩)] "u1" 7
      = ([("u1", ⟨1, "u1", "A", ["r1"], 256, 256⟩)], []) := by
  decide

/-- **C3 amended.** Eviction on a full queue happens only on the
room-broadcast path: there a full-queue subscribed non-excluded session
is removed and its queue closed, while presence broadcasts and
`SendToUser` never close a queue nor change the set of registered
sessions — they drop the frame silently. -/
theorem full_queue_eviction_only_room_broadcast :
    (∀ cl roomID payload exclude u c, (keysOf cl).Nodup → lookupC cl u = some c →
      u ≠ exclude → c.rooms.contains roomID = true → c.cap ≤ c.pending →
      lookupC (broadcastDeliver cl roomID payload exclude).1 u = none
      ∧ HubOut.closeSend c.cid ∈ (broadcastDeliver cl roomID payload exclude).2)
  ∧ (∀ cl f, keysOf (broadcastPresence cl f).1 = keysOf cl
      ∧ ∀ i, HubOut.closeSend i ∉ (broadcastPresence cl f).2)
  ∧ (∀ cl u payload, keysOf (SendToUser cl u payload).1 = keysOf cl
      ∧ ∀ i, HubOut.closeSend i ∉ (SendToUser cl u payload).2) :=
  ⟨fun cl roomID payload exclude u c hnd hlk hex hroom hfull =>
      broadcastDeliver_evicts cl roomID payload exclude u c hnd hlk hex hroom hfull,
   fun cl f => ⟨keysOf_broadcastPresence cl f, fun i => broadcastPresence_no_closeSend cl f i⟩,
   fun cl u payload => sendToUser_preserves cl u payload⟩

/-- Witness for C3 amended: on the room-broadcast path a full-queue
subscribed session (cid 1) is removed and its queue closed. -/
theorem full_queue_eviction_only_room_broadcast_witness :
    lookupC (broadcastDeliver [("u1", ⟨1, "u1", "A", ["r1"], 256, 256⟩)] "r1" 7 "").1 "u1"
      = none
  ∧ HubOut.closeSend 1
      ∈ (broadcastDeliver [("u1", ⟨1, "u1", "A", ["r1"], 256, 256⟩)] "r1" 7 "").2 :=
  full_queue_eviction_only_room_broadcast.1 [("u1", ⟨1, "u1", "A", ["r1"], 256, 256⟩)]
    "r1" 7 "" "u1" ⟨1, "u1", "A", ["r1"], 256, 256⟩ (by decide) (by decide) (by decide)
    (by decide) (by decide)

/-- **C1 (code bug).** Reconnect scenario: `u1` has session cid 1; its
replacement cid 2 registers (closing cid 1), then cid 1's late
`unregister` arrives.  The identity check correctly leaves cid 2 in the
map — yet the handler broadcasts `presence.update offline`
unconditionally, so the observer `u2` sees `online` then `offline`: the
final presence status another live session observes for `u1` is
`offline`, while the spec requires the final state to be `online`. -/
theorem reconnect_final_presence_offline :
    presenceStatusesFor
      (hubSteps [("u1", ⟨1, "u1", "A", [], 0, 256⟩), ("u2", ⟨3, "u2", "B", [], 0, 256⟩)]
        [HubEvent.register ⟨2, "u1", "A", [], 0, 256⟩,
         HubEvent.unregister ⟨1, "u1", "A", [], 0, 256⟩]).2 "u2" "u1"
      = ["online", "offline"]
  ∧ (lookupC (hubSteps [("u1", ⟨1, "u1", "A", [], 0, 256⟩), ("u2", ⟨3, "u2", "B", [], 0, 256⟩)]
        [HubEvent.register ⟨2, "u1", "A", [], 0, 256⟩,
         HubEvent.unregister ⟨1, "u1", "A", [], 0, 256⟩]).1 "u1").map Client.cid
      = some 2 := by
  decide

/-- **C8.** Assuming live queues (no full queue, which would trigger
eviction) and non-empty user ids: a room broadcast with empty
`exclude_user_id` enqueues the payload to exactly the sessions subscribed
to the room — including the sender's own session — and with a non-empty
`exclude_user_id` exactly the session with that user id is skipped among
the subscribed ones; send-message broadcasts `message.new` with no
exclusion. -/
theorem broadcast_exclusion_semantics (cl : List (String × Client)) (roomID : String)
    (payload : Nat)
    (hnf : ∀ p ∈ cl, p.2.pending < p.2.cap) (hnd : (keysOf cl).Nodup)
    (hne : ∀ p ∈ cl, p.1 ≠ "") :
    (∀ u c, lookupC cl u = some c →
      (HubOut.enqueue u (HubFrame.data payload) ∈ (broadcastDeliver cl roomID payload "").2
        ↔ c.rooms.contains roomID = true))
  ∧ (∀ exclude, exclude ≠ "" → ∀ u c, lookupC cl u = some c →
      (HubOut.enqueue u (HubFrame.data payload)
          ∈ (broadcastDeliver cl roomID payload exclude).2
        ↔ (c.rooms.contains roomID = true ∧ u ≠ exclude)))
  ∧ (∀ (cctx : ClientCtx) (sp : SendMessagePayload) (m : MessageWithSender),
      sp.content ≠ "" → sp.room_id ≠ "" →
      ChatOut.broadcast sp.room_id (Frame.messageNew ⟨m.ID, m.RoomID, m.SenderID,
          m.SenderUsername, m.Content, m.CreatedAt⟩) ""
        ∈ HandleSendMessage cctx sp (Except.ok true) (Except.ok m)) := by
  refine ⟨?_, ?_, ?_⟩
  · intro u c hlk
    rw [broadcastDeliver_enqueue_iff cl roomID payload "" hnf hnd u c hlk]
    have hu : u ≠ "" := by
      obtain ⟨p, hp, hfst⟩ := List.mem_map.mp (lookupC_mem_keys cl u c hlk)
      exact hfst ▸ hne p hp
    simp [hu]
  · intro exclude _ u c hlk
    exact broadcastDeliver_enqueue_iff cl roomID payload exclude hnf hnd u c hlk
  · intro cctx sp m hcnt hrm
    simp [HandleSendMessage, hcnt, hrm]

/-- Witness for C8 on a two-session map: `u1` subscribed to `r1` receives
the broadcast, and excluding `u2` keeps `u1` eligible. -/
theorem broadcast_exclusion_semantics_witness :
    (HubOut.enqueue "u1" (HubFrame.data 7)
        ∈ (broadcastDeliver [("u1", ⟨1, "u1", "A", ["r1"], 0, 256⟩),
            ("u2", ⟨2, "u2", "B", ["r1"], 0, 256⟩)] "r1" 7 "").2
      ↔ (Client.rooms ⟨1, "u1", "A", ["r1"], 0, 256⟩).contains "r1" = true)
  ∧ (HubOut.enqueue "u1" (HubFrame.data 7)
        ∈ (broadcastDeliver [("u1", ⟨1, "u1", "A", ["r1"], 0, 256⟩),
            ("u2", ⟨2, "u2", "B", ["r1"], 0, 256⟩)] "r1" 7 "u2").2
      ↔ ((Client.rooms ⟨1, "u1", "A", ["r1"], 0, 256⟩).contains "r1" = true ∧ "u1" ≠ "u2")) := by
  have h := broadcast_exclusion_semantics [("u1", ⟨1, "u1", "A", ["r1"], 0, 256⟩),
      ("u2", ⟨2, "u2", "B", ["r1"], 0, 256⟩)] "r1" 7 (by decide) (by decide) (by decide)
  exact ⟨h.1 "u1" ⟨1, "u1", "A", ["r1"], 0, 256⟩ (by decide),
    h.2.1 "u2" (by decide) "u1" ⟨1, "u1", "A", ["r1"], 0, 256⟩ (by decide)⟩

end Chat
